import Mathlib

/-!
Verification of the 2lang-chat repository against its natural-language
specification.

The development shallowly embeds the TypeScript sources:
* `src/src/services/translationService.ts` (translation gateway),
* `src/src/services/supabaseChat.ts` (hosted-store backend),
* `src/src/services/sharedChat.ts` (local polling-storage backend),
* `src/src/App.tsx` (join-time role assignment, sendMessage).

Asynchronous provider calls and database queries are modelled by passing
their outcomes explicitly: a provider outcome is an `Option String`
(`none` = the call rejected / timed out / returned a malformed body),
and a database table is a `List` of row structures.  The external SQL
engine's `ORDER BY` clause is modelled with `List.insertionSort`, its
`WHERE`/`eq`/`gt` clauses with `List.filter`.  Timestamps are `Int`
milliseconds (JavaScript `Date.now()` values).  Functions that the
TypeScript never lets throw are total Lean functions.
-/

namespace TwoLang

/-! ### Translation gateway (`translationService.ts`) -/

/-- JavaScript's `String.prototype.toLowerCase()` on the language codes,
modelled character-wise (the codes in play are short ASCII strings such as
`"en"`, `"JA"`). -/
def toLowerStr (s : String) : String :=
  ⟨s.data.map Char.toLower⟩

/-- JavaScript's `String.prototype.trim()`: strip leading and trailing
whitespace, modelled on the character list. -/
def trimStr (s : String) : String :=
  ⟨((s.data.dropWhile Char.isWhitespace).reverse.dropWhile Char.isWhitespace).reverse⟩

/-- The shape of `TranslationService` results (`interface TranslationResponse`;
the optional `error` field is never set by any return path that reaches a
caller, so only `translatedText` is modelled). -/
structure TranslationResponse where
  translatedText : String
deriving DecidableEq, Repr

/-- Embeds `getMockTranslation` (translationService.ts lines 293–298): the
deterministic placeholder `` `[${fromLanguage}→${toLanguage}] ${text}` ``. -/
def getMockTranslation (text fromLanguage toLanguage : String) : TranslationResponse :=
  ⟨"[" ++ fromLanguage ++ "→" ++ toLanguage ++ "] " ++ text⟩

/-- One character of the Japanese-script regex
`/[぀-ヿ㐀-䶿一-龯ｦ-ﾟ]/` used by
`isTargetLanguageSatisfied`. -/
def isJapaneseChar (c : Char) : Bool :=
  (0x3040 ≤ c.toNat && c.toNat ≤ 0x30ff) ||
  (0x3400 ≤ c.toNat && c.toNat ≤ 0x4dbf) ||
  (0x4e00 ≤ c.toNat && c.toNat ≤ 0x9faf) ||
  (0xff66 ≤ c.toNat && c.toNat ≤ 0xff9f)

/-- Embeds `isTargetLanguageSatisfied` (translationService.ts lines 300–307):
empty text never satisfies; target `"ja"` requires at least one character of
the Japanese script ranges; any other target accepts any non-empty text. -/
def isTargetLanguageSatisfied (text target : String) : Bool :=
  if text = "" then false
  else if target = "ja" then text.data.any isJapaneseChar
  else true

/-- Embeds `translateWithOpenAI` (translationService.ts lines 61–143), at the
boundary of the HTTP call: `content` is
`data.choices[0]?.message?.content` (`none` when the fetch rejected, the
response was non-2xx, or the field is missing).  The function trims the
content and throws (`none`) when the result is empty. -/
def translateWithOpenAI (content : Option String) : Option String :=
  match content with
  | none => none
  | some c =>
    let t := trimStr c
    if t = "" then none else some t

/-- The loop of `translateWithFallbacks` (translationService.ts lines
164–175) over the settled results `[libre, mymemory, google]`: the first
fulfilled string result that passes `isTargetLanguageSatisfied` wins. -/
def firstSatisfied (target : String) : List (Option String) → Option String
  | [] => none
  | none :: rest => firstSatisfied target rest
  | some s :: rest =>
    if isTargetLanguageSatisfied s target then some s else firstSatisfied target rest

/-- Embeds `translateWithFallbacks` (translationService.ts lines 145–183):
all three public providers are invoked (their outcomes are the three
`Option String` arguments; `none` = the provider's promise rejected);
the first satisfying result is returned, otherwise the deterministic
mock translation.  No error escapes. -/
def translateWithFallbacks (text fromLanguage toLanguage : String)
    (libre mymemory google : Option String) : TranslationResponse :=
  match firstSatisfied toLanguage [libre, mymemory, google] with
  | some s => ⟨s⟩
  | none => getMockTranslation text fromLanguage toLanguage

/-- Embeds `translateWithRetry` (translationService.ts lines 40–59) with the
outcomes of the successive OpenAI attempts given as a list (the call site
uses the default `maxRetries = 2`, i.e. a two-element list).  The second
component counts provider invocations ("network requests"): one per OpenAI
attempt made, plus three when the fallback chain is entered.  An empty
attempt list corresponds to `maxRetries < 1`, where the loop body never
runs and the trailing `getMockTranslation` return is reached. -/
def translateWithRetry (text fromLanguage toLanguage : String)
    (attempts : List (Option String))
    (libre mymemory google : Option String) : TranslationResponse × Nat :=
  match attempts with
  | [] => (getMockTranslation text fromLanguage toLanguage, 0)
  | [a] =>
    match translateWithOpenAI a with
    | some s => (⟨s⟩, 1)
    | none => (translateWithFallbacks text fromLanguage toLanguage libre mymemory google, 1 + 3)
  | a :: b :: rest =>
    match translateWithOpenAI a with
    | some s => (⟨s⟩, 1)
    | none =>
      let r := translateWithRetry text fromLanguage toLanguage (b :: rest) libre mymemory google
      (r.1, r.2 + 1)

/-- Embeds `translateText` (translationService.ts lines 17–38).  The branch order
is exactly the source's: the missing-API-key check comes first and goes to
the fallback chain; only a configured key reaches the `fromLanguage ===
toLanguage` early return.  `o1, o2` are the outcomes of the two OpenAI
attempts, `libre, mymemory, google` those of the fallback providers.  The
second component counts provider invocations (0 = no network request). -/
def translateText (apiKey text fromLanguage toLanguage : String)
    (o1 o2 libre mymemory google : Option String) : TranslationResponse × Nat :=
  let fromLower := toLowerStr fromLanguage
  let toLower := toLowerStr toLanguage
  if apiKey = "" then
    (translateWithFallbacks text fromLower toLower libre mymemory google, 3)
  else if fromLanguage = toLanguage then
    (⟨text⟩, 0)
  else
    translateWithRetry text fromLower toLower [o1, o2] libre mymemory google

example : (translateText "key" "hola" "en" "en" none none none none none) = (⟨"hola"⟩, 0) := by
  decide

example : (translateText "" "hola" "en" "en" none none none none none) =
    (⟨"[en→en] hola"⟩, 3) := by decide

example : (translateText "key" "hola" "en" "ja" none none (some "hello") none (some "こん")).1 =
    ⟨"こん"⟩ := by decide

/-! ### Data model of the hosted store (`supabaseChat.ts`)

Database tables are lists of row structures; the columns are the ones the
service reads and writes (`sender_id` and `room_id` appear because
`getMessages` maps them and `joinRoom` writes `room_id`; both are nullable,
i.e. `Option`). -/

/-- A message sender (`'user1' | 'user2'`). -/
inductive Sender where
  | user1
  | user2
deriving DecidableEq, Repr

/-- A presence role (`'user1' | 'user2' | 'spectator'`). -/
inductive Role where
  | user1
  | user2
  | spectator
deriving DecidableEq, Repr

/-- A row of the `messages` table. -/
structure MessageRow where
  id : String
  text : String
  translated_text : Option String
  sender : Sender
  sender_name : String
  show_original : Bool
  is_translating : Bool
  created_at : Int
  sender_id : Option String
  room_id : Option String
deriving DecidableEq, Repr

/-- The `SharedMessage` record produced by `supabaseChat.getMessages`'s
mapping.  `senderId` and `roomId` are `Option` because the mapped columns
are nullable (the TypeScript type claims `string` but the value can be
null/undefined at runtime). -/
structure SharedMessage where
  id : String
  text : String
  translatedText : Option String
  sender : Sender
  senderName : String
  senderId : Option String
  roomId : Option String
  timestamp : Int
  showOriginal : Bool
  isTranslating : Bool
deriving DecidableEq, Repr

/-- The row-to-record mapping inside `supabaseChat.getMessages`
(supabaseChat.ts lines 244–255). -/
def toSharedMessage (r : MessageRow) : SharedMessage :=
  { id := r.id
    text := r.text
    translatedText := r.translated_text
    sender := r.sender
    senderName := r.sender_name
    senderId := r.sender_id
    roomId := r.room_id
    timestamp := r.created_at
    showOriginal := r.show_original
    isTranslating := r.is_translating }

/-- The ascending `created_at` ordering used by the `messages` query's
`.order('created_at', { ascending: true })`. -/
def msgLe (a b : MessageRow) : Prop :=
  a.created_at ≤ b.created_at

instance : DecidableRel msgLe := fun a b => inferInstanceAs (Decidable (_ ≤ _))

instance : IsTotal MessageRow msgLe := ⟨fun a b => Int.le_total a.created_at b.created_at⟩

instance : IsTrans MessageRow msgLe := ⟨fun _ _ _ h h' => le_trans h h'⟩

/-- Embeds `supabaseChat.getMessages` (supabaseChat.ts lines 225–260): select all
message rows, ordered ascending by `created_at`; when a non-empty `roomId`
argument is given (JavaScript truthiness of the optional parameter), add
`.eq('room_id', roomId)`; map the rows to `SharedMessage` records.
(SQL `=` never matches a NULL `room_id`.) -/
def supabaseGetMessages (db : List MessageRow) (roomId : String) : List SharedMessage :=
  let rows := if roomId = "" then db else db.filter (fun r => decide (r.room_id = some roomId))
  (rows.insertionSort msgLe).map toSharedMessage

/-- The fields of the `addMessage` argument
(`Omit<SharedMessage, 'id' | 'timestamp'>`): the caller supplies
`senderId` and `roomId`, but `addMessage` does not copy them into the
insert payload. -/
structure NewMessageFields where
  text : String
  translatedText : Option String
  sender : Sender
  senderName : String
  senderId : String
  roomId : String
  showOriginal : Option Bool
  isTranslating : Option Bool
deriving DecidableEq, Repr

/-- The row inserted by `supabaseChat.addMessage` (supabaseChat.ts lines
158–201).  The insert payload contains only `text`, `translated_text`,
`sender`, `sender_name`, `show_original` (`message.showOriginal || false`)
and `is_translating` (`message.isTranslating || false`); `sender_id` and
`room_id` are omitted and therefore NULL.  `newId` is the
server-generated uuid and `now` the server-assigned `created_at`. -/
def supabaseAddMessageRow (m : NewMessageFields) (newId : String) (now : Int) : MessageRow :=
  { id := newId
    text := m.text
    translated_text := m.translatedText
    sender := m.sender
    sender_name := m.senderName
    show_original := m.showOriginal.getD false
    is_translating := m.isTranslating.getD false
    created_at := now
    sender_id := none
    room_id := none }

/-- The state of the `messages` table after `supabaseChat.addMessage`. -/
def supabaseAddMessage (db : List MessageRow) (m : NewMessageFields) (newId : String)
    (now : Int) : List MessageRow :=
  db ++ [supabaseAddMessageRow m newId now]

/-- The partial update accepted by `updateMessage`: of the
`Partial<SharedMessage>` argument only `translatedText`, `showOriginal`
and `isTranslating` are read (supabaseChat.ts lines 209–212). -/
structure MsgUpdates where
  translatedText : Option String
  showOriginal : Option Bool
  isTranslating : Option Bool
deriving DecidableEq, Repr

/-- The `UPDATE ... SET` applied to a matching row by
`supabaseChat.updateMessage`: each of the three columns is set only when
the corresponding update field was supplied (`!== undefined`). -/
def applyUpdate (u : MsgUpdates) (r : MessageRow) : MessageRow :=
  { r with
    translated_text := match u.translatedText with
      | some t => some t
      | none => r.translated_text
    show_original := u.showOriginal.getD r.show_original
    is_translating := u.isTranslating.getD r.is_translating }

/-- Embeds `supabaseChat.updateMessage` (supabaseChat.ts lines 203–223): an SQL
`UPDATE` with `.eq('id', messageId)` touches exactly the rows whose `id`
matches; with no matching row it is a no-op.  Errors are caught and
logged, so no exception escapes. -/
def supabaseUpdateMessage (db : List MessageRow) (messageId : String)
    (u : MsgUpdates) : List MessageRow :=
  db.map (fun r => if r.id = messageId then applyUpdate u r else r)

/-- A row of the `presence` table. -/
structure PresenceRow where
  client_id : String
  user_id : Option String
  name : String
  role : Role
  language : Option String
  room_id : Option String
  last_seen : Int
deriving DecidableEq, Repr

/-- The `SharedPresence` record produced by `supabaseChat.getPresence`'s
mapping (supabaseChat.ts lines 342–350). -/
structure SharedPresence where
  clientId : String
  userId : Option String
  name : String
  role : Role
  language : Option String
  roomId : Option String
  lastSeen : Int
deriving DecidableEq, Repr

/-- The row-to-record mapping inside `supabaseChat.getPresence`. -/
def toSharedPresence (p : PresenceRow) : SharedPresence :=
  { clientId := p.client_id
    userId := p.user_id
    name := p.name
    role := p.role
    language := p.language
    roomId := p.room_id
    lastSeen := p.last_seen }

/-- The descending `last_seen` ordering of the `presence` query's
`.order('last_seen', { ascending: false })`. -/
def presenceGe (a b : PresenceRow) : Prop :=
  b.last_seen ≤ a.last_seen

instance : DecidableRel presenceGe := fun a b => inferInstanceAs (Decidable (_ ≤ _))

instance : IsTotal PresenceRow presenceGe := ⟨fun a b => Int.le_total b.last_seen a.last_seen⟩

instance : IsTrans PresenceRow presenceGe := ⟨fun _ _ _ h h' => le_trans h' h⟩

/-- Embeds `supabaseChat.getPresence` (supabaseChat.ts lines 322–357): select all
presence rows ordered by `last_seen` descending, optionally filtered by
`room_id`, and map them.  Note: the query has **no** freshness condition on
`last_seen` — the current hosted variant returns every row regardless of
age (its constructor comment reads "No automatic cleanup - users stay in
presence indefinitely"). -/
def supabaseGetPresence (db : List PresenceRow) (roomId : String) : List SharedPresence :=
  let rows := if roomId = "" then db else db.filter (fun p => decide (p.room_id = some roomId))
  (rows.insertionSort presenceGe).map toSharedPresence

/-- The `onConflict: 'client_id'` upsert used by `joinRoom` and
`updatePresence`: `client_id` is a UNIQUE column, so the existing row with
that key (at most one) is replaced, otherwise the row is inserted. -/
def upsertPresenceRow : List PresenceRow → PresenceRow → List PresenceRow
  | [], rec => [rec]
  | p :: ps, rec =>
    if p.client_id = rec.client_id then rec :: ps else p :: upsertPresenceRow ps rec

/-- A row of the `typing_indicators` table (primary key `"user"`). -/
structure TypingRow where
  user : Sender
  is_typing : Bool
  timestamp : Int
deriving DecidableEq, Repr

/-- The `TypingIndicator` record returned to callers. -/
structure TypingIndicator where
  user : Sender
  isTyping : Bool
  timestamp : Int
deriving DecidableEq, Repr

/-- The descending `timestamp` ordering of the `typing_indicators`
query. -/
def typingGe (a b : TypingRow) : Prop :=
  b.timestamp ≤ a.timestamp

instance : DecidableRel typingGe := fun a b => inferInstanceAs (Decidable (_ ≤ _))

instance : IsTotal TypingRow typingGe := ⟨fun a b => Int.le_total b.timestamp a.timestamp⟩

instance : IsTrans TypingRow typingGe := ⟨fun _ _ _ h h' => le_trans h' h⟩

/-- Embeds `supabaseChat.getTypingIndicator` (supabaseChat.ts lines 493–523):
`.eq('is_typing', true).gt('timestamp', now − 10 000 ms)` then
`.order('timestamp', descending).limit(1).maybeSingle()`; `null` (here
`none`) when no row qualifies. -/
def getTypingIndicator (db : List TypingRow) (now : Int) : Option TypingIndicator :=
  let fresh := db.filter (fun r => r.is_typing && decide (now - 10000 < r.timestamp))
  ((fresh.insertionSort typingGe).head?).map (fun r => ⟨r.user, r.is_typing, r.timestamp⟩)

/-! ### Local polling-storage backend (`sharedChat.ts`) -/

/-- The `SharedMessage` record of the local variant (sharedChat.ts lines
4–12; it has no `senderId`/`roomId`/`isTranslating`). -/
structure LocalMessage where
  id : String
  text : String
  translatedText : Option String
  sender : Sender
  senderName : String
  timestamp : Int
  showOriginal : Option Bool
deriving DecidableEq, Repr

/-- The `SharedPresence` record of the local variant (sharedChat.ts lines
14–19). -/
structure LocalPresence where
  clientId : String
  name : String
  role : Role
  lastSeen : Int
deriving DecidableEq, Repr

/-- Embeds `sharedChat.getMessages` (sharedChat.ts lines 49–56): parse the stored
JSON (`none` = key absent or parse failure, yielding `[]`) and return the
stored list **as is** — no sorting is applied. -/
def sharedGetMessages (stored : Option (List LocalMessage)) : List LocalMessage :=
  stored.getD []

/-- Embeds `sharedChat.getPresence` (sharedChat.ts lines 66–76): parse the stored
JSON and keep only records with `now - p.lastSeen < 30000` (the local
30-second freshness window). -/
def sharedGetPresence (stored : Option (List LocalPresence)) (now : Int) : List LocalPresence :=
  (stored.getD []).filter (fun p => decide (now - p.lastSeen < 30000))

/-- The fields of the local variant's `updateMessage` partial argument
that its callers supply (spread-merged over the stored record). -/
structure LocalMsgUpdates where
  translatedText : Option String
  showOriginal : Option Bool
deriving DecidableEq, Repr

/-- The `{ ...messages[index], ...updates }` merge of
`sharedChat.updateMessage`. -/
def mergeLocal (u : LocalMsgUpdates) (m : LocalMessage) : LocalMessage :=
  { m with
    translatedText := match u.translatedText with
      | some t => some t
      | none => m.translatedText
    showOriginal := match u.showOriginal with
      | some b => some b
      | none => m.showOriginal }

/-- Embeds `sharedChat.updateMessage` (sharedChat.ts lines 101–109): `findIndex`
locates the first record with the given id and replaces it with the merged
record; when the id is absent (`index === -1`) nothing is written. -/
def sharedUpdateMessage : List LocalMessage → String → LocalMsgUpdates → List LocalMessage
  | [], _, _ => []
  | m :: ms, messageId, u =>
    if m.id = messageId then mergeLocal u m :: ms
    else m :: sharedUpdateMessage ms messageId u

/-! ### Join-time role assignment (`App.tsx`, `joinRoom`, lines 91–131) -/

/-- The role computation of `App.joinRoom` (App.tsx lines 102–116): filter
the `getPresence()` snapshot to the room, count `user1` and `user2`
records, and pick the first free participant role, else spectator.  The
joining client's identity is **not** consulted. -/
def computeJoinRole (presence : List SharedPresence) (roomId : String) : Role :=
  let roomPresence := presence.filter (fun p => decide (p.roomId = some roomId))
  let user1Count := (roomPresence.filter (fun p => decide (p.role = Role.user1))).length
  let user2Count := (roomPresence.filter (fun p => decide (p.role = Role.user2))).length
  if user1Count = 0 then Role.user1
  else if user2Count = 0 then Role.user2
  else Role.spectator

/-- The identity and inputs of one joining client: its per-session
`clientId`, the fresh `userId` generated by `joinRoom`
(`generateUserId()`), and the `displayName`/`myLanguage` state of that
client's tab. -/
structure Joiner where
  clientId : String
  userId : String
  name : String
  language : String
deriving DecidableEq, Repr

/-- One full `App.joinRoom` call against the `presence` table (App.tsx
lines 91–131): the `!displayName || !myLanguage` guard aborts with an
alert (`none`, table unchanged); otherwise the role is computed from the
`supabaseChatService.getPresence()` snapshot and
`supabaseChatService.joinRoom` upserts the presence row (keyed on
`client_id`) with that role, the room id and a fresh `last_seen`. -/
def joinRoomStep (db : List PresenceRow) (roomId : String) (j : Joiner)
    (now : Int) : Option Role × List PresenceRow :=
  if j.name = "" ∨ j.language = "" then
    (none, db)
  else
    let role := computeJoinRole (supabaseGetPresence db "") roomId
    (some role,
      upsertPresenceRow db
        { client_id := j.clientId
          user_id := some j.userId
          name := j.name
          role := role
          language := some j.language
          room_id := some roomId
          last_seen := now })

/-- Sequential, non-concurrent joins: each client performs `joinRoom`
against the table state left by the previous one.  Returns the role each
join computed (`none` = the guard aborted that join). -/
def sequentialJoinRoles (db : List PresenceRow) (roomId : String) :
    List Joiner → Int → List (Option Role)
  | [], _ => []
  | j :: rest, now =>
    let step := joinRoomStep db roomId j now
    step.1 :: sequentialJoinRoles step.2 roomId rest now

/-! ### `App.sendMessage` (App.tsx lines 299–393) -/

/-- The component state touched by `sendMessage`, plus a flag recording
whether the blocking `alert(...)` in the `catch` block fired. -/
structure AppSendState where
  newMessage : String
  db : List MessageRow
  typing : List TypingRow
  alerted : Bool
deriving DecidableEq, Repr

/-- Embeds `App.sendMessage` up to (and including) the `addMessage` insert.
The two validation guards return early; otherwise the input is cleared
(`setNewMessage('')`) **before** the insert is attempted.  `insertOk`
is the outcome of the `supabase.from('messages').insert(...)` call: on
failure `addMessage` throws, control reaches the `catch` block, and the
blocking alert fires with no further state change (the background
translation and the typing indicator are only started after a successful
insert, and are part of the asynchronous continuation, not of this
transition). -/
def sendMessage (st : AppSendState) (myLanguage : String) (currentSender : Sender)
    (displayName : String) (currentUserId currentRoomId : Option String)
    (needsTranslation : Bool) (insertOk : Bool)
    (newId : String) (now : Int) : AppSendState :=
  if trimStr st.newMessage = "" then st
  else if myLanguage = "" then st
  else
    let messageText := st.newMessage
    let st1 := { st with newMessage := "" }
    let fields : NewMessageFields :=
      { text := messageText
        translatedText := none
        sender := currentSender
        senderName := if displayName = "" then "Anonymous" else displayName
        senderId := currentUserId.getD ""
        roomId := currentRoomId.getD ""
        showOriginal := some false
        isTranslating := some needsTranslation }
    if insertOk then
      { st1 with db := supabaseAddMessage st1.db fields newId now }
    else
      { st1 with alerted := true }

/-! ## Theorems -/

/-- Helper: when every settled fallback result either failed (`none`) or
fails the target-language check, the selection loop finds nothing. -/
theorem firstSatisfied_eq_none (target : String) (outs : List (Option String))
    (h : ∀ x ∈ outs, ∀ s, x = some s → isTargetLanguageSatisfied s target = false) :
    firstSatisfied target outs = none := by
  induction outs with
  | nil => rfl
  | cons x rest ih =>
    cases x with
    | none =>
      simp only [firstSatisfied]
      exact ih fun y hy s hs => h y (List.mem_cons_of_mem _ hy) s hs
    | some s =>
      simp only [firstSatisfied, h (some s) (List.mem_cons_self _ _) s rfl,
        Bool.false_eq_true, if_false]
      exact ih fun y hy s hs => h y (List.mem_cons_of_mem _ hy) s hs

/-- Helper: all-fail behaviour of the fallback chain. -/
theorem translateWithFallbacks_allfail (text fromLanguage toLanguage : String)
    (libre mymemory google : Option String)
    (hl : ∀ s, libre = some s → isTargetLanguageSatisfied s toLanguage = false)
    (hm : ∀ s, mymemory = some s → isTargetLanguageSatisfied s toLanguage = false)
    (hg : ∀ s, google = some s → isTargetLanguageSatisfied s toLanguage = false) :
    translateWithFallbacks text fromLanguage toLanguage libre mymemory google =
      getMockTranslation text fromLanguage toLanguage := by
  unfold translateWithFallbacks
  rw [firstSatisfied_eq_none]
  intro x hx s hs
  simp only [List.mem_cons, List.not_mem_nil, or_false] at hx
  rcases hx with hx | hx | hx
  · exact hl s (hx ▸ hs)
  · exact hm s (hx ▸ hs)
  · exact hg s (hx ▸ hs)

/-- C1 — counterexample.  The claim asserts that `translateText` with
equal source and target language returns the text unchanged with no
network request *regardless of whether a primary provider API key is
configured*.  With no API key configured (`apiKey = ""`), the source's
`if (!this.apiKey)` branch is taken **before** the `fromLanguage ===
toLanguage` check: the fallback chain is invoked (three provider
requests), and when the providers fail the result is the placeholder
`"[en→en] hello"`, not `"hello"`. -/
theorem c1_counterexample :
    (translateText "" "hello" "en" "en" none none none none none).1 ≠ ⟨"hello"⟩ ∧
      (translateText "" "hello" "en" "en" none none none none none).2 ≠ 0 := by
  decide

/-- C1 — amended claim: when a primary provider API key **is** configured,
`translateText` with equal source and target languages returns the
original text unchanged and issues no network request (provider-invocation
count 0), for every text, language code and provider environment.  (With
no key configured the call goes straight to the fallback chain even when
`from == to`, issuing provider requests — see `c1_counterexample`.) -/
theorem c1_same_language_noop_with_key (apiKey text lang : String)
    (o1 o2 libre mymemory google : Option String) (hk : apiKey ≠ "") :
    translateText apiKey text lang lang o1 o2 libre mymemory google = (⟨text⟩, 0) := by
  simp [translateText, hk]

/-- C1 — witness for `c1_same_language_noop_with_key` at a concrete
input. -/
theorem c1_witness :
    translateText "key" "hi" "en" "en" none none none none none = (⟨"hi"⟩, 0) :=
  c1_same_language_noop_with_key "key" "hi" "en" none none none none none (by decide)

/-- C3 — confirmed.  For every input (`translateText` is a total function
of the provider-outcome environment, so no exception reaches the caller):
whenever both OpenAI attempts fail and every fallback provider either
fails or fails the target-language satisfied-check, the result is exactly
the placeholder `"[from→to] "` followed by the original text, built from
the lowercased language codes.  The disjunctive hypothesis states that the
providers are actually consulted: either no API key is configured, or the
languages differ (with a key and equal languages no provider is invoked
and the text is returned unchanged, `c1_same_language_noop_with_key`). -/
theorem c3_all_providers_fail_placeholder
    (apiKey text fromLanguage toLanguage : String)
    (o1 o2 libre mymemory google : Option String)
    (h1 : translateWithOpenAI o1 = none) (h2 : translateWithOpenAI o2 = none)
    (hl : ∀ s, libre = some s →
      isTargetLanguageSatisfied s (toLowerStr toLanguage) = false)
    (hm : ∀ s, mymemory = some s →
      isTargetLanguageSatisfied s (toLowerStr toLanguage) = false)
    (hg : ∀ s, google = some s →
      isTargetLanguageSatisfied s (toLowerStr toLanguage) = false)
    (hcase : apiKey = "" ∨ fromLanguage ≠ toLanguage) :
    (translateText apiKey text fromLanguage toLanguage o1 o2 libre mymemory google).1 =
      ⟨"[" ++ toLowerStr fromLanguage ++ "→" ++ toLowerStr toLanguage ++ "] " ++ text⟩ := by
  have hfb := translateWithFallbacks_allfail text (toLowerStr fromLanguage)
    (toLowerStr toLanguage) libre mymemory google hl hm hg
  by_cases hk : apiKey = ""
  · simp [translateText, hk, hfb, getMockTranslation]
  · have hne : fromLanguage ≠ toLanguage := hcase.resolve_left hk
    simp [translateText, hk, hne, translateWithRetry, h1, h2, hfb, getMockTranslation]

/-- C3 — witness: a concrete all-fail environment (one fallback returns a
Latin-script string for target `"ja"`, one rejects, one returns an empty
string) yields exactly the placeholder. -/
theorem c3_witness :
    (translateText "key" "hola" "en" "ja" none none (some "hello") none (some "")).1 =
      ⟨"[en→ja] hola"⟩ := by
  have h := c3_all_providers_fail_placeholder "key" "hola" "en" "ja" none none
    (some "hello") none (some "") rfl rfl
    (fun s hs => by cases hs; decide)
    (fun s hs => by cases hs)
    (fun s hs => by cases hs; decide)
    (Or.inr (by decide))
  simpa using h

/-! ### Role-assignment lemmas -/

/-- The upserted row is in the table. -/
theorem upsertPresenceRow_mem_self (l : List PresenceRow) (rec : PresenceRow) :
    rec ∈ upsertPresenceRow l rec := by
  induction l with
  | nil => simp [upsertPresenceRow]
  | cons p ps ih =>
    by_cases h : p.client_id = rec.client_id <;> simp [upsertPresenceRow, h, ih]

/-- Rows keyed differently from the upserted row survive the upsert. -/
theorem upsertPresenceRow_mem_of_ne {x : PresenceRow} {l : List PresenceRow}
    (rec : PresenceRow) (hx : x ∈ l) (hne : x.client_id ≠ rec.client_id) :
    x ∈ upsertPresenceRow l rec := by
  induction l with
  | nil => cases hx
  | cons p ps ih =>
    rcases List.mem_cons.mp hx with h | h
    · subst h
      simp [upsertPresenceRow, hne]
    · by_cases hp : p.client_id = rec.client_id
      · simp [upsertPresenceRow, hp, h]
      · simp [upsertPresenceRow, hp, ih h]

/-- Every row of the upserted table is the new row or an old row. -/
theorem mem_upsertPresenceRow {x rec : PresenceRow} {l : List PresenceRow}
    (hx : x ∈ upsertPresenceRow l rec) : x = rec ∨ x ∈ l := by
  induction l with
  | nil => simpa [upsertPresenceRow] using hx
  | cons p ps ih =>
    by_cases hp : p.client_id = rec.client_id
    · simp only [upsertPresenceRow, if_pos hp, List.mem_cons] at hx
      rcases hx with h | h
      · exact Or.inl h
      · exact Or.inr (List.mem_cons_of_mem _ h)
    · simp only [upsertPresenceRow, if_neg hp, List.mem_cons] at hx
      rcases hx with h | h
      · exact Or.inr (h ▸ List.mem_cons_self _ _)
      · rcases ih h with h' | h'
        · exact Or.inl h'
        · exact Or.inr (List.mem_cons_of_mem _ h')

/-- The `presence` table has a live row for `roomId` with role `ro`. -/
def roomHasRole (db : List PresenceRow) (roomId : String) (ro : Role) : Prop :=
  ∃ r ∈ db, r.room_id = some roomId ∧ r.role = ro

/-- The room/role count computed by `computeJoinRole` over a
`getPresence()` snapshot is zero exactly when the underlying table has no
row with that room and role. -/
theorem roomRoleCount_zero_iff (db : List PresenceRow) (roomId : String) (ro : Role) :
    ((((supabaseGetPresence db "").filter
        (fun p => decide (p.roomId = some roomId))).filter
        (fun p => decide (p.role = ro))).length = 0) ↔
      ¬ roomHasRole db roomId ro := by
  rw [List.length_eq_zero, List.filter_eq_nil_iff]
  constructor
  · intro h hex
    rcases hex with ⟨r, hr, hroom, hrole⟩
    have hmem : toSharedPresence r ∈ supabaseGetPresence db "" := by
      simp only [supabaseGetPresence, if_pos rfl, List.mem_map]
      exact ⟨r, by simpa using (List.mem_insertionSort presenceGe).mpr hr, rfl⟩
    have hfil : toSharedPresence r ∈
        (supabaseGetPresence db "").filter (fun p => decide (p.roomId = some roomId)) := by
      refine List.mem_filter.mpr ⟨hmem, ?_⟩
      simp [toSharedPresence, hroom]
    have := h _ hfil
    simp [toSharedPresence, hrole] at this
  · intro h p hp
    obtain ⟨hpmem, hproom⟩ := List.mem_filter.mp hp
    simp only [decide_eq_true_eq] at hproom
    simp only [supabaseGetPresence, if_pos rfl, List.mem_map] at hpmem
    rcases hpmem with ⟨r, hr, hrp⟩
    have hrdb : r ∈ db := by simpa using (List.mem_insertionSort presenceGe).mp hr
    simp only [decide_eq_true_eq]
    intro hrole
    refine h ⟨r, hrdb, ?_, ?_⟩
    · have : (toSharedPresence r).roomId = some roomId := hrp ▸ hproom
      simpa [toSharedPresence] using this
    · have : (toSharedPresence r).role = ro := hrp ▸ hrole
      simpa [toSharedPresence] using this

/-- If the room has no `user1` row, the join computation assigns
`user1`. -/
theorem joinRole_of_no_user1 {db : List PresenceRow} {roomId : String}
    (h : ¬ roomHasRole db roomId Role.user1) :
    computeJoinRole (supabaseGetPresence db "") roomId = Role.user1 := by
  have h0 := (roomRoleCount_zero_iff db roomId Role.user1).mpr h
  simp only [computeJoinRole]
  rw [if_pos h0]

/-- If the room has a `user1` row but no `user2` row, the join computation
assigns `user2`. -/
theorem joinRole_of_user1_no_user2 {db : List PresenceRow} {roomId : String}
    (h1 : roomHasRole db roomId Role.user1) (h2 : ¬ roomHasRole db roomId Role.user2) :
    computeJoinRole (supabaseGetPresence db "") roomId = Role.user2 := by
  have h1' : ¬ ((((supabaseGetPresence db "").filter
      (fun p => decide (p.roomId = some roomId))).filter
      (fun p => decide (p.role = Role.user1))).length = 0) := by
    rw [roomRoleCount_zero_iff]
    exact not_not_intro h1
  have h2' := (roomRoleCount_zero_iff db roomId Role.user2).mpr h2
  simp only [computeJoinRole]
  rw [if_neg h1', if_pos h2']

/-- If the room has both participant rows, the join computation assigns
`spectator`. -/
theorem joinRole_of_full_room {db : List PresenceRow} {roomId : String}
    (h1 : roomHasRole db roomId Role.user1) (h2 : roomHasRole db roomId Role.user2) :
    computeJoinRole (supabaseGetPresence db "") roomId = Role.spectator := by
  have h1' : ¬ ((((supabaseGetPresence db "").filter
      (fun p => decide (p.roomId = some roomId))).filter
      (fun p => decide (p.role = Role.user1))).length = 0) := by
    rw [roomRoleCount_zero_iff]
    exact not_not_intro h1
  have h2' : ¬ ((((supabaseGetPresence db "").filter
      (fun p => decide (p.roomId = some roomId))).filter
      (fun p => decide (p.role = Role.user2))).length = 0) := by
    rw [roomRoleCount_zero_iff]
    exact not_not_intro h2
  simp only [computeJoinRole]
  rw [if_neg h1', if_neg h2']

/-- Once a room holds a `user1` row keyed `a` and a `user2` row keyed `b`,
every further sequential join by clients keyed differently from `a` and
`b` (with the name/language guard passed) is assigned `spectator`. -/
theorem sequentialJoinRoles_spectators (roomId : String) (a b : String) (now : Int) :
    ∀ (rest : List Joiner) (db : List PresenceRow),
    (∃ x ∈ db, x.room_id = some roomId ∧ x.role = Role.user1 ∧ x.client_id = a) →
    (∃ y ∈ db, y.room_id = some roomId ∧ y.role = Role.user2 ∧ y.client_id = b) →
    (∀ j ∈ rest, j.clientId ≠ a ∧ j.clientId ≠ b ∧ j.name ≠ "" ∧ j.language ≠ "") →
    sequentialJoinRoles db roomId rest now =
      List.replicate rest.length (some Role.spectator)
  | [], _, _, _, _ => by simp [sequentialJoinRoles]
  | j :: rest, db, hx, hy, hj => by
    obtain ⟨hja, hjb, hjn, hjl⟩ := hj j (List.mem_cons_self _ _)
    have hguard : ¬ (j.name = "" ∨ j.language = "") := by
      rintro (h | h) <;> [exact hjn h; exact hjl h]
    have h1 : roomHasRole db roomId Role.user1 := by
      rcases hx with ⟨x, hxm, hxr, hxrole, _⟩
      exact ⟨x, hxm, hxr, hxrole⟩
    have h2 : roomHasRole db roomId Role.user2 := by
      rcases hy with ⟨y, hym, hyr, hyrole, _⟩
      exact ⟨y, hym, hyr, hyrole⟩
    have hrole := joinRole_of_full_room h1 h2
    simp only [sequentialJoinRoles, joinRoomStep, if_neg hguard, hrole,
      List.length_cons, List.replicate_succ]
    refine List.cons_eq_cons.mpr ⟨rfl, ?_⟩
    refine sequentialJoinRoles_spectators roomId a b now rest _ ?_ ?_
      (fun j' hj' => hj j' (List.mem_cons_of_mem _ hj'))
    · rcases hx with ⟨x, hxm, hxr, hxrole, hxa⟩
      exact ⟨x, upsertPresenceRow_mem_of_ne _ hxm (by simpa [hxa] using Ne.symm hja),
        hxr, hxrole, hxa⟩
    · rcases hy with ⟨y, hym, hyr, hyrole, hyb⟩
      exact ⟨y, upsertPresenceRow_mem_of_ne _ hym (by simpa [hyb] using Ne.symm hjb),
        hyr, hyrole, hyb⟩

/-- C2 — confirmed.  Under sequential, non-concurrent joins into a room
with no presence rows (against an otherwise arbitrary `presence` table),
by clients with pairwise distinct client ids that pass the name/language
guard, the join-time role assignment gives the first joiner `user1`
(participant-A), the second `user2` (participant-B), and the third and
every later joiner `spectator`. -/
theorem c2_sequential_join_roles (db : List PresenceRow) (roomId : String)
    (joiners : List Joiner) (now : Int)
    (hempty : ∀ r ∈ db, r.room_id ≠ some roomId)
    (hnodup : (joiners.map Joiner.clientId).Nodup)
    (hvalid : ∀ j ∈ joiners, j.name ≠ "" ∧ j.language ≠ "") :
    sequentialJoinRoles db roomId joiners now =
      List.take joiners.length [some Role.user1, some Role.user2] ++
        List.replicate (joiners.length - 2) (some Role.spectator) := by
  match joiners with
  | [] => simp [sequentialJoinRoles]
  | [j1] =>
    obtain ⟨hn1, hl1⟩ := hvalid j1 (List.mem_cons_self _ _)
    have hguard1 : ¬ (j1.name = "" ∨ j1.language = "") := by
      rintro (h | h) <;> [exact hn1 h; exact hl1 h]
    have hno1 : ¬ roomHasRole db roomId Role.user1 := by
      rintro ⟨r, hr, hroom, _⟩
      exact hempty r hr hroom
    simp [sequentialJoinRoles, joinRoomStep, if_neg hguard1, joinRole_of_no_user1 hno1]
  | j1 :: j2 :: rest =>
    obtain ⟨hn1, hl1⟩ := hvalid j1 (List.mem_cons_self _ _)
    obtain ⟨hn2, hl2⟩ := hvalid j2 (List.mem_cons_of_mem _ (List.mem_cons_self _ _))
    have hguard1 : ¬ (j1.name = "" ∨ j1.language = "") := by
      rintro (h | h) <;> [exact hn1 h; exact hl1 h]
    have hguard2 : ¬ (j2.name = "" ∨ j2.language = "") := by
      rintro (h | h) <;> [exact hn2 h; exact hl2 h]
    -- distinctness facts from `hnodup`
    have hnodup' := hnodup
    simp only [List.map_cons, List.nodup_cons, List.mem_cons, List.mem_map] at hnodup'
    have h12 : j1.clientId ≠ j2.clientId := fun h => hnodup'.1 (Or.inl h)
    have hrest1 : ∀ j ∈ rest, j.clientId ≠ j1.clientId :=
      fun j hj h => hnodup'.1 (Or.inr ⟨j, hj, h⟩)
    have hrest2 : ∀ j ∈ rest, j.clientId ≠ j2.clientId :=
      fun j hj h => hnodup'.2.1 ⟨j, hj, h⟩
    -- first join: empty room, assigned user1
    have hno1 : ¬ roomHasRole db roomId Role.user1 := by
      rintro ⟨r, hr, hroom, _⟩
      exact hempty r hr hroom
    have hrole1 := joinRole_of_no_user1 hno1
    set rec1 : PresenceRow :=
      { client_id := j1.clientId, user_id := some j1.userId, name := j1.name,
        role := Role.user1, language := some j1.language, room_id := some roomId,
        last_seen := now } with hrec1
    have hdb1 : (joinRoomStep db roomId j1 now).2 = upsertPresenceRow db rec1 := by
      simp [joinRoomStep, if_neg hguard1, hrole1, hrec1]
    -- second join: user1 present, no user2, assigned user2
    have hhas1 : roomHasRole (upsertPresenceRow db rec1) roomId Role.user1 :=
      ⟨rec1, upsertPresenceRow_mem_self db rec1, rfl, rfl⟩
    have hno2 : ¬ roomHasRole (upsertPresenceRow db rec1) roomId Role.user2 := by
      rintro ⟨r, hr, hroom, hrole⟩
      rcases mem_upsertPresenceRow hr with h | h
      · subst h
        simp [hrec1] at hrole
      · exact hempty r h hroom
    have hrole2 := joinRole_of_user1_no_user2 hhas1 hno2
    set rec2 : PresenceRow :=
      { client_id := j2.clientId, user_id := some j2.userId, name := j2.name,
        role := Role.user2, language := some j2.language, room_id := some roomId,
        last_seen := now } with hrec2
    -- the state after both joins keeps both participant rows
    have hx : ∃ x ∈ upsertPresenceRow (upsertPresenceRow db rec1) rec2,
        x.room_id = some roomId ∧ x.role = Role.user1 ∧ x.client_id = j1.clientId :=
      ⟨rec1, upsertPresenceRow_mem_of_ne rec2 (upsertPresenceRow_mem_self db rec1)
        (by simpa [hrec1, hrec2] using h12), rfl, rfl, rfl⟩
    have hy : ∃ y ∈ upsertPresenceRow (upsertPresenceRow db rec1) rec2,
        y.room_id = some roomId ∧ y.role = Role.user2 ∧ y.client_id = j2.clientId :=
      ⟨rec2, upsertPresenceRow_mem_self _ rec2, rfl, rfl, rfl⟩
    have htail := sequentialJoinRoles_spectators roomId j1.clientId j2.clientId now rest
      (upsertPresenceRow (upsertPresenceRow db rec1) rec2) hx hy
      (fun j hj => ⟨hrest1 j hj, hrest2 j hj,
        (hvalid j (List.mem_cons_of_mem _ (List.mem_cons_of_mem _ hj))).1,
        (hvalid j (List.mem_cons_of_mem _ (List.mem_cons_of_mem _ hj))).2⟩)
    simp only [sequentialJoinRoles, joinRoomStep, if_neg hguard1, if_neg hguard2,
      hrole1, hrole2, ← hrec1, ← hrec2] at htail ⊢
    rw [htail]
    simp

/-- C2 — witness: three distinct clients joining an empty room get
`user1`, `user2`, `spectator`. -/
theorem c2_witness :
    sequentialJoinRoles [] "room1"
        [⟨"c1", "u1", "Alice", "en"⟩, ⟨"c2", "u2", "Bob", "ja"⟩,
         ⟨"c3", "u3", "Carol", "en"⟩] 1000 =
      [some Role.user1, some Role.user2, some Role.spectator] := by
  have h := c2_sequential_join_roles [] "room1"
    [⟨"c1", "u1", "Alice", "en"⟩, ⟨"c2", "u2", "Bob", "ja"⟩, ⟨"c3", "u3", "Carol", "en"⟩]
    1000 (by simp) (by decide) (by decide)
  simpa using h

/-- C6 — the claim is right and the code is wrong.  The spec (§4.6) and
the earlier in-repo variant (src/unnamed/part_008, which begins with
`presence.find(p => p.clientId === clientId)` and reuses the found
record's role) require the join computation to return the existing role of
an already-present client.  The current `App.joinRoom` only counts
`user1`/`user2` rows and never consults the joining client id: a client
`"c1"` who joined an empty room as `user1` (first conjunct; the resulting
table holds exactly its `user1` row, second conjunct) is assigned `user2`
when the join computation runs again for the same client id (third
conjunct) — not its existing role, and not the same role twice. -/
theorem c6_rejoin_not_idempotent :
    (joinRoomStep [] "room1" ⟨"c1", "u1", "Alice", "en"⟩ 1000).1 = some Role.user1 ∧
    (joinRoomStep [] "room1" ⟨"c1", "u1", "Alice", "en"⟩ 1000).2 =
      [{ client_id := "c1", user_id := some "u1", name := "Alice", role := Role.user1,
         language := some "en", room_id := some "room1", last_seen := 1000 }] ∧
    (joinRoomStep (joinRoomStep [] "room1" ⟨"c1", "u1", "Alice", "en"⟩ 1000).2 "room1"
        ⟨"c1", "u2", "Alice", "en"⟩ 2000).1 = some Role.user2 := by
  refine ⟨by decide, by decide, by decide⟩

/-- C4 — counterexample.  The claim asserts that each backend variant's
`getPresence()` excludes records whose `lastSeen` is older than the
staleness window at read time.  The current hosted-store `getPresence`
issues its select with **no** freshness condition and no notion of the
current time, so a record with `last_seen = 0` — older than any staleness
window at any real read time — is still returned. -/
theorem c4_counterexample :
    supabaseGetPresence
        [{ client_id := "c9", user_id := none, name := "Old", role := Role.user1,
           language := none, room_id := none, last_seen := 0 }] "" =
      [{ clientId := "c9", userId := none, name := "Old", role := Role.user1,
         language := none, roomId := none, lastSeen := 0 }] := by
  decide

/-- C4 — amended claim: the local polling-storage variant's
`getPresence()` returns exactly the stored records satisfying
`now - lastSeen < 30000` (its 30-second staleness window), so stale
records are excluded there; the hosted-store variant's `getPresence()`
returns **every** stored record regardless of `lastSeen` (staleness of
hosted presence is handled only by the separate server-side cleanup, not
by the read). -/
theorem c4_presence_freshness :
    (∀ (stored : Option (List LocalPresence)) (now : Int) (p : LocalPresence),
      p ∈ sharedGetPresence stored now ↔ p ∈ stored.getD [] ∧ now - p.lastSeen < 30000) ∧
    (∀ (db : List PresenceRow) (r : PresenceRow), r ∈ db →
      toSharedPresence r ∈ supabaseGetPresence db "") := by
  constructor
  · intro stored now p
    simp [sharedGetPresence, List.mem_filter]
  · intro db r hr
    simp only [supabaseGetPresence, if_pos rfl, List.mem_map]
    exact ⟨r, by simpa using (List.mem_insertionSort presenceGe).mpr hr, rfl⟩

/-- C4 — witness: a local record 100 seconds old is excluded by the local
variant, while the same-aged hosted row is still returned by the hosted
variant. -/
theorem c4_witness :
    ({ clientId := "c1", name := "A", role := Role.user1, lastSeen := 0 } : LocalPresence) ∉
        sharedGetPresence
          (some [{ clientId := "c1", name := "A", role := Role.user1, lastSeen := 0 }])
          100000 ∧
      toSharedPresence
          { client_id := "c1", user_id := none, name := "A", role := Role.user1,
            language := none, room_id := none, last_seen := 0 } ∈
        supabaseGetPresence
          [{ client_id := "c1", user_id := none, name := "A", role := Role.user1,
             language := none, room_id := none, last_seen := 0 }] "" := by
  constructor
  · intro hmem
    have h := (c4_presence_freshness.1
      (some [{ clientId := "c1", name := "A", role := Role.user1, lastSeen := 0 }])
      100000 { clientId := "c1", name := "A", role := Role.user1, lastSeen := 0 }).mp hmem
    exact absurd h.2 (by decide)
  · exact c4_presence_freshness.2 _ _ (List.mem_cons_self _ _)

/-- C5 — confirmed, for both backend variants (the embedded update
functions are total, so no exception escapes the public contract).
Hosted-store variant: the merge applied to the matched row keeps `id`,
`text`, `sender`, `sender_name` and `created_at` (the three optional
update fields are the only columns written); an update of a row located
between unaffected rows rewrites only that row; with no matching id the
table is unchanged.  Local variant: the spread-merge keeps `id`, `text`,
`sender`, `senderName` and `timestamp`; only the first record with the
given id is rewritten; with no matching id nothing is written. -/
theorem c5_updateMessage_frame :
    (∀ (u : MsgUpdates) (r : MessageRow),
      (applyUpdate u r).id = r.id ∧ (applyUpdate u r).text = r.text ∧
      (applyUpdate u r).sender = r.sender ∧ (applyUpdate u r).sender_name = r.sender_name ∧
      (applyUpdate u r).created_at = r.created_at) ∧
    (∀ (l1 l2 : List MessageRow) (r : MessageRow) (u : MsgUpdates),
      (∀ x ∈ l1, x.id ≠ r.id) → (∀ x ∈ l2, x.id ≠ r.id) →
      supabaseUpdateMessage (l1 ++ r :: l2) r.id u = l1 ++ applyUpdate u r :: l2) ∧
    (∀ (db : List MessageRow) (messageId : String) (u : MsgUpdates),
      (∀ x ∈ db, x.id ≠ messageId) → supabaseUpdateMessage db messageId u = db) ∧
    (∀ (u : LocalMsgUpdates) (m : LocalMessage),
      (mergeLocal u m).id = m.id ∧ (mergeLocal u m).text = m.text ∧
      (mergeLocal u m).sender = m.sender ∧ (mergeLocal u m).senderName = m.senderName ∧
      (mergeLocal u m).timestamp = m.timestamp) ∧
    (∀ (l1 l2 : List LocalMessage) (m : LocalMessage) (u : LocalMsgUpdates),
      (∀ x ∈ l1, x.id ≠ m.id) →
      sharedUpdateMessage (l1 ++ m :: l2) m.id u = l1 ++ mergeLocal u m :: l2) ∧
    (∀ (msgs : List LocalMessage) (messageId : String) (u : LocalMsgUpdates),
      (∀ x ∈ msgs, x.id ≠ messageId) → sharedUpdateMessage msgs messageId u = msgs) := by
  refine ⟨fun u r => ⟨rfl, rfl, rfl, rfl, rfl⟩, ?_, ?_, fun u m => ⟨rfl, rfl, rfl, rfl, rfl⟩,
    ?_, ?_⟩
  · intro l1 l2 r u h1 h2
    unfold supabaseUpdateMessage
    rw [List.map_append, List.map_cons, if_pos rfl]
    congr 1
    · calc l1.map (fun x => if x.id = r.id then applyUpdate u x else x)
          = l1.map id := List.map_congr_left fun x hx => if_neg (h1 x hx)
        _ = l1 := List.map_id l1
    · congr 1
      calc l2.map (fun x => if x.id = r.id then applyUpdate u x else x)
          = l2.map id := List.map_congr_left fun x hx => if_neg (h2 x hx)
        _ = l2 := List.map_id l2
  · intro db messageId u h
    unfold supabaseUpdateMessage
    calc db.map (fun x => if x.id = messageId then applyUpdate u x else x)
        = db.map id := List.map_congr_left fun x hx => if_neg (h x hx)
      _ = db := List.map_id db
  · intro l1 l2 m u h1
    induction l1 with
    | nil => simp [sharedUpdateMessage]
    | cons x l1' ih =>
      have hx : x.id ≠ m.id := h1 x (List.mem_cons_self _ _)
      simp only [List.cons_append, sharedUpdateMessage, if_neg hx]
      exact congrArg (x :: ·) (ih fun y hy => h1 y (List.mem_cons_of_mem _ hy))
  · intro msgs messageId u h
    induction msgs with
    | nil => rfl
    | cons x ms ih =>
      have hx : x.id ≠ messageId := h x (List.mem_cons_self _ _)
      simp only [sharedUpdateMessage, if_neg hx]
      rw [ih fun y hy => h y (List.mem_cons_of_mem _ hy)]

/-- C5 — witness: in a two-row hosted table, updating the second row's
translation rewrites only that row's updatable columns, and an update
with an unknown id leaves a local store unchanged. -/
theorem c5_witness :
    supabaseUpdateMessage
        [{ id := "a", text := "hi", translated_text := none, sender := Sender.user1,
           sender_name := "A", show_original := false, is_translating := false,
           created_at := 1, sender_id := none, room_id := none },
         { id := "b", text := "yo", translated_text := none, sender := Sender.user2,
           sender_name := "B", show_original := false, is_translating := true,
           created_at := 2, sender_id := none, room_id := none }] "b"
        { translatedText := some "salut", showOriginal := none, isTranslating := some false } =
      [{ id := "a", text := "hi", translated_text := none, sender := Sender.user1,
         sender_name := "A", show_original := false, is_translating := false,
         created_at := 1, sender_id := none, room_id := none },
       { id := "b", text := "yo", translated_text := some "salut", sender := Sender.user2,
         sender_name := "B", show_original := false, is_translating := false,
         created_at := 2, sender_id := none, room_id := none }] ∧
    sharedUpdateMessage
        [{ id := "a", text := "hi", translatedText := none, sender := Sender.user1,
           senderName := "A", timestamp := 1, showOriginal := none }] "zzz"
        { translatedText := some "salut", showOriginal := some true } =
      [{ id := "a", text := "hi", translatedText := none, sender := Sender.user1,
         senderName := "A", timestamp := 1, showOriginal := none }] := by
  constructor
  · have h := c5_updateMessage_frame.2.1
      [{ id := "a", text := "hi", translated_text := none, sender := Sender.user1,
         sender_name := "A", show_original := false, is_translating := false,
         created_at := 1, sender_id := none, room_id := none }] []
      { id := "b", text := "yo", translated_text := none, sender := Sender.user2,
        sender_name := "B", show_original := false, is_translating := true,
        created_at := 2, sender_id := none, room_id := none }
      { translatedText := some "salut", showOriginal := none, isTranslating := some false }
      (by decide) (by decide)
    simpa [applyUpdate] using h
  · exact c5_updateMessage_frame.2.2.2.2.2
      [{ id := "a", text := "hi", translatedText := none, sender := Sender.user1,
         senderName := "A", timestamp := 1, showOriginal := none }] "zzz"
      { translatedText := some "salut", showOriginal := some true } (by decide)

/-- C7 — counterexample.  The claim asserts that both backend variants'
`getMessages()` return the log sorted ascending by creation time
regardless of how records are stored.  The local polling-storage variant
(sharedChat.ts lines 49–56) returns the parsed stored list as-is, with no
sort: a store holding a timestamp-5 record before a timestamp-3 record
comes back in that order. -/
theorem c7_counterexample :
    ¬ List.Sorted (fun a b : LocalMessage => a.timestamp ≤ b.timestamp)
      (sharedGetMessages (some
        [{ id := "m2", text := "world", translatedText := none, sender := Sender.user1,
           senderName := "A", timestamp := 5, showOriginal := none },
         { id := "m1", text := "hello", translatedText := none, sender := Sender.user1,
           senderName := "A", timestamp := 3, showOriginal := none }])) := by
  decide

/-- C7 — amended claim: the hosted-store variant's `getMessages()` is
sorted ascending by creation time for every table state and room filter
(and returns every unfiltered row); the local polling-storage variant
returns the stored list unchanged, so its output is in storage order and
is sorted only insofar as its own appends keep the store sorted. -/
theorem c7_message_ordering :
    (∀ (db : List MessageRow) (roomId : String),
      List.Sorted (fun a b : SharedMessage => a.timestamp ≤ b.timestamp)
        (supabaseGetMessages db roomId)) ∧
    (∀ (db : List MessageRow) (r : MessageRow), r ∈ db →
      toSharedMessage r ∈ supabaseGetMessages db "") ∧
    (∀ stored : List LocalMessage, sharedGetMessages (some stored) = stored) := by
  refine ⟨?_, ?_, fun stored => rfl⟩
  · intro db roomId
    unfold supabaseGetMessages
    exact (List.sorted_insertionSort msgLe _).map toSharedMessage fun a b h => h
  · intro db r hr
    simp only [supabaseGetMessages, if_pos rfl, List.mem_map]
    exact ⟨r, by simpa using (List.mem_insertionSort msgLe).mpr hr, rfl⟩

/-- C7 — witness: a hosted table stored out of order comes back sorted
and containing its rows. -/
theorem c7_witness :
    List.Sorted (fun a b : SharedMessage => a.timestamp ≤ b.timestamp)
      (supabaseGetMessages
        [{ id := "m2", text := "world", translated_text := none, sender := Sender.user1,
           sender_name := "A", show_original := false, is_translating := false,
           created_at := 5, sender_id := none, room_id := none },
         { id := "m1", text := "hello", translated_text := none, sender := Sender.user1,
           sender_name := "A", show_original := false, is_translating := false,
           created_at := 3, sender_id := none, room_id := none }] "") ∧
    toSharedMessage
        { id := "m1", text := "hello", translated_text := none, sender := Sender.user1,
          sender_name := "A", show_original := false, is_translating := false,
          created_at := 3, sender_id := none, room_id := none } ∈
      supabaseGetMessages
        [{ id := "m2", text := "world", translated_text := none, sender := Sender.user1,
           sender_name := "A", show_original := false, is_translating := false,
           created_at := 5, sender_id := none, room_id := none },
         { id := "m1", text := "hello", translated_text := none, sender := Sender.user1,
           sender_name := "A", show_original := false, is_translating := false,
           created_at := 3, sender_id := none, room_id := none }] "" := by
  constructor
  · exact c7_message_ordering.1 _ ""
  · exact c7_message_ordering.2.1 _ _ (List.mem_cons_of_mem _ (List.mem_cons_self _ _))

/-- C8 — counterexample.  The claim asserts that after a failed send the
message input field still contains the text that failed to send.  In
`App.sendMessage` the input is cleared (`setNewMessage('')`) *before* the
insert is attempted and is not restored in the `catch` block: after a
failed insert of `"hi"` the input is `""`, not `"hi"` (the blocking alert
does fire). -/
theorem c8_counterexample :
    (sendMessage { newMessage := "hi", db := [], typing := [], alerted := false }
        "en" Sender.user1 "Alice" none none false false "id1" 5).newMessage ≠ "hi" ∧
    (sendMessage { newMessage := "hi", db := [], typing := [], alerted := false }
        "en" Sender.user1 "Alice" none none false false "id1" 5).alerted = true := by
  decide

/-- C8 — amended claim: when the insert fails (for any input that passes
the two validation guards), the failure is surfaced as the blocking
alert, no message row is persisted and the typing store is untouched —
but the input field has already been cleared at send time and is not
restored, so the failed text is not retained for retry. -/
theorem c8_send_failure (st : AppSendState) (myLanguage : String)
    (currentSender : Sender) (displayName : String)
    (currentUserId currentRoomId : Option String) (needsTranslation : Bool)
    (newId : String) (now : Int)
    (hmsg : ¬ trimStr st.newMessage = "") (hlang : ¬ myLanguage = "") :
    (sendMessage st myLanguage currentSender displayName currentUserId currentRoomId
        needsTranslation false newId now).alerted = true ∧
    (sendMessage st myLanguage currentSender displayName currentUserId currentRoomId
        needsTranslation false newId now).db = st.db ∧
    (sendMessage st myLanguage currentSender displayName currentUserId currentRoomId
        needsTranslation false newId now).typing = st.typing ∧
    (sendMessage st myLanguage currentSender displayName currentUserId currentRoomId
        needsTranslation false newId now).newMessage = "" := by
  simp [sendMessage, hmsg, hlang]

/-- C8 — witness for `c8_send_failure` at a concrete failed send. -/
theorem c8_witness :
    (sendMessage { newMessage := "hi", db := [], typing := [], alerted := false }
        "en" Sender.user1 "Alice" none none false false "id1" 5).alerted = true ∧
    (sendMessage { newMessage := "hi", db := [], typing := [], alerted := false }
        "en" Sender.user1 "Alice" none none false false "id1" 5).newMessage = "" := by
  have h := c8_send_failure { newMessage := "hi", db := [], typing := [], alerted := false }
    "en" Sender.user1 "Alice" none none false "id1" 5 (by decide) (by decide)
  exact ⟨h.1, h.2.2.2⟩

/-- C9 — confirmed (stated for the single stored indicator row, the
`typing_indicators` table's single slot): `getTypingIndicator` returns
the indicator exactly when `isTyping` is true and the timestamp is within
the 10-second freshness window (strictly newer than `now − 10000` ms),
and returns `none` otherwise — in particular once the timestamp falls
outside the window even though `isTyping` was last set true. -/
theorem c9_typing_freshness (r : TypingRow) (now : Int) :
    (getTypingIndicator [r] now = some ⟨r.user, r.is_typing, r.timestamp⟩ ↔
      (r.is_typing = true ∧ now - 10000 < r.timestamp)) ∧
    (getTypingIndicator [r] now = none ↔
      ¬ (r.is_typing = true ∧ now - 10000 < r.timestamp)) := by
  by_cases h : (r.is_typing && decide (now - 10000 < r.timestamp)) = true
  · have hprop : r.is_typing = true ∧ now - 10000 < r.timestamp := by
      simpa [Bool.and_eq_true, decide_eq_true_eq] using h
    constructor
    · simp [getTypingIndicator, List.filter, h, List.insertionSort, hprop]
    · simp [getTypingIndicator, List.filter, h, List.insertionSort, hprop]
  · have hprop : ¬ (r.is_typing = true ∧ now - 10000 < r.timestamp) := by
      simpa [Bool.and_eq_true, decide_eq_true_eq] using h
    constructor
    · simp [getTypingIndicator, List.filter, h, hprop]
    · simp [getTypingIndicator, List.filter, h, hprop]

/-- C9 — witness: a fresh typing indicator is returned, and the same
indicator read 11 seconds after its timestamp is `none`. -/
theorem c9_witness :
    getTypingIndicator [{ user := Sender.user1, is_typing := true, timestamp := 5000 }]
        6000 = some { user := Sender.user1, isTyping := true, timestamp := 5000 } ∧
    getTypingIndicator [{ user := Sender.user1, is_typing := true, timestamp := 5000 }]
        16000 = none := by
  constructor
  · exact (c9_typing_freshness
      { user := Sender.user1, is_typing := true, timestamp := 5000 } 6000).1.mpr
      ⟨rfl, by decide⟩
  · exact (c9_typing_freshness
      { user := Sender.user1, is_typing := true, timestamp := 5000 } 16000).2.mpr
      (by decide)

/-- C10 — confirmed.  The row inserted by the hosted-store `addMessage`
omits `sender_id` and `room_id` from the insert payload (they are NULL on
the persisted row, even though the caller supplied `senderId`/`roomId`
values in the argument record); a subsequent unfiltered `getMessages()`
returns the message with `senderId` and `roomId` absent; and
`getMessages(roomId)` with any non-empty room filter never returns a
message created by `addMessage`, since SQL `room_id = 'x'` does not match
a NULL `room_id` — the filtered result is exactly what it was before the
insert. -/
theorem c10_addMessage_unroomed (db : List MessageRow) (m : NewMessageFields)
    (newId : String) (now : Int) :
    (supabaseAddMessageRow m newId now).sender_id = none ∧
    (supabaseAddMessageRow m newId now).room_id = none ∧
    (toSharedMessage (supabaseAddMessageRow m newId now)).senderId = none ∧
    (toSharedMessage (supabaseAddMessageRow m newId now)).roomId = none ∧
    toSharedMessage (supabaseAddMessageRow m newId now) ∈
      supabaseGetMessages (supabaseAddMessage db m newId now) "" ∧
    (∀ roomId : String, roomId ≠ "" →
      supabaseGetMessages (supabaseAddMessage db m newId now) roomId =
        supabaseGetMessages db roomId) := by
  refine ⟨rfl, rfl, rfl, rfl, ?_, ?_⟩
  · simp only [supabaseGetMessages, if_pos rfl, List.mem_map]
    refine ⟨supabaseAddMessageRow m newId now, ?_, rfl⟩
    have : supabaseAddMessageRow m newId now ∈ supabaseAddMessage db m newId now := by
      simp [supabaseAddMessage]
    simpa using (List.mem_insertionSort msgLe).mpr this
  · intro roomId hne
    simp only [supabaseGetMessages, if_neg hne, supabaseAddMessage, List.filter_append]
    have hfil : [supabaseAddMessageRow m newId now].filter
        (fun r => decide (r.room_id = some roomId)) = [] := by
      simp [supabaseAddMessageRow]
    rw [hfil, List.append_nil]

/-- C10 — witness for `c10_addMessage_unroomed` at a concrete insert and
room filter. -/
theorem c10_witness :
    supabaseGetMessages
        (supabaseAddMessage []
          { text := "hi", translatedText := none, sender := Sender.user1,
            senderName := "A", senderId := "user_1", roomId := "room_7",
            showOriginal := some false, isTranslating := some false } "id1" 5) "room_7" =
      supabaseGetMessages [] "room_7" ∧
    (toSharedMessage (supabaseAddMessageRow
        { text := "hi", translatedText := none, sender := Sender.user1,
          senderName := "A", senderId := "user_1", roomId := "room_7",
          showOriginal := some false, isTranslating := some false } "id1" 5)).roomId = none := by
  constructor
  · exact (c10_addMessage_unroomed []
      { text := "hi", translatedText := none, sender := Sender.user1,
        senderName := "A", senderId := "user_1", roomId := "room_7",
        showOriginal := some false, isTranslating := some false } "id1" 5).2.2.2.2.2
      "room_7" (by decide)
  · exact (c10_addMessage_unroomed []
      { text := "hi", translatedText := none, sender := Sender.user1,
        senderName := "A", senderId := "user_1", roomId := "room_7",
        showOriginal := some false, isTranslating := some false } "id1" 5).2.2.2.1

end TwoLang
